import Mathlib

/-!
Verification of the Structline input widget (`src/main.py`).

The Python source is shallowly embedded: the host database API
(`idc.get_struc_id`, `idc.get_member_name`, `idc.get_member_offset`,
`ida_typeinf` type parsing and sizes) is abstracted as a record of pure
query functions `Env`, the widget's mutable attributes become the record
`Vars`, and each Python function of interest becomes a Lean function on
those records.  Machine integers are modelled as `Int` (Python ints are
unbounded), fallible parsing returns `Option`.
-/

namespace Structline

/-- ASCII whitespace used by Python's `str.split()` / `str.strip()`
(space, tab, newline, carriage return, vertical tab, form feed). -/
def isPySpace (c : Char) : Bool :=
  c = ' ' || c = '\t' || c = '\n' || c = '\r' || c = Char.ofNat 11 || c = Char.ofNat 12

/-- Helper for `pySplitWs`: accumulates the current word (reversed). -/
def splitWsAux : List Char → List Char → List (List Char)
  | [], acc => if acc.isEmpty then [] else [acc.reverse]
  | c :: cs, acc =>
    if isPySpace c then
      if acc.isEmpty then splitWsAux cs [] else acc.reverse :: splitWsAux cs []
    else splitWsAux cs (c :: acc)

/-- Python `s.split()` (no argument): split on runs of whitespace,
discarding empty tokens. -/
def pySplitWs (s : String) : List String :=
  (splitWsAux s.toList []).map fun cs => String.mk cs

/-- `text.replace(",", "").split()` from `validateParseInput`. -/
def tokenize (text : String) : List String :=
  pySplitWs (String.mk (text.toList.filter fun c => c ≠ ','))

/-- Python `s.rstrip(chars)`: remove from the right every character that
occurs in `chars` (a set of characters, not a suffix). -/
def pyRstrip (s : String) (chars : List Char) : String :=
  String.mk ((s.toList.reverse.dropWhile fun c => chars.contains c).reverse)

/-- Python `s.startswith(pre)`. -/
def pyStartsWith (s pre : String) : Bool :=
  pre.toList.isPrefixOf s.toList

/-- Hexadecimal digit (for Python `int(_, 16)`). -/
def isHexDigitCh (c : Char) : Bool :=
  c.isDigit || ('a' ≤ c && c ≤ 'f') || ('A' ≤ c && c ≤ 'F')

/-- Value of a hexadecimal digit. -/
def hexVal (c : Char) : Nat :=
  if c.isDigit then c.toNat - 48
  else if 'a' ≤ c && c ≤ 'f' then c.toNat - 87
  else c.toNat - 55

/-- Digits after the first one: Python allows single underscores, but
only between digits. -/
def hexRest : List Char → Nat → Option Nat
  | [], acc => some acc
  | '_' :: c :: cs, acc => if isHexDigitCh c then hexRest cs (acc * 16 + hexVal c) else none
  | ['_'], _ => none
  | c :: cs, acc => if isHexDigitCh c then hexRest cs (acc * 16 + hexVal c) else none

/-- A nonempty run of hex digits with optional internal underscores. -/
def hexNum : List Char → Option Nat
  | [] => none
  | c :: cs => if isHexDigitCh c then hexRest cs (hexVal c) else none

/-- After a `0x` / `0X` prefix Python additionally allows one underscore
before the first digit. -/
def hexAfterPrefix : List Char → Option Nat
  | '_' :: cs => hexNum cs
  | cs => hexNum cs

/-- The unsigned part of a base-16 literal: optional `0x`/`0X` prefix,
then digits. -/
def hexAfterSign : List Char → Option Nat
  | '0' :: 'x' :: cs => hexAfterPrefix cs
  | '0' :: 'X' :: cs => hexAfterPrefix cs
  | cs => hexNum cs

/-- Python `int(s, 16)`: strip surrounding whitespace, optional sign,
optional `0x` prefix, hex digits with underscores between digits.
Returns `none` where Python raises `ValueError`. -/
def pyIntHex (s : String) : Option Int :=
  let cs := (s.toList.dropWhile isPySpace).reverse.dropWhile isPySpace |>.reverse
  match cs with
  | '+' :: rest => (hexAfterSign rest).map fun n => (n : Int)
  | '-' :: rest => (hexAfterSign rest).map fun n => -(n : Int)
  | rest => (hexAfterSign rest).map fun n => (n : Int)

/-- `parseOffset` from `src/main.py`:
`for suffix in ["h", "LL", "u"]: arg = arg.rstrip(suffix)` then
`int(arg, 16)`.  Note `rstrip` treats its argument as a character set. -/
def parseOffset (arg : String) : Option Int :=
  let a1 := pyRstrip arg ['h']
  let a2 := pyRstrip a1 ['L', 'L']
  let a3 := pyRstrip a2 ['u']
  pyIntHex a3

/-- Identifier body: `[a-zA-Z_][a-zA-Z0-9_]*` over a character list. -/
def identCore : List Char → Bool
  | [] => false
  | c :: cs =>
    (c.isAlpha || c = '_') && cs.all fun d => d.isAlpha || d.isDigit || d = '_'

/-- `isValidMemberName` from `src/main.py`:
`re.match(r'^[a-zA-Z_][a-zA-Z0-9_]*$', name)`.  Python's `$` also
matches just before a single trailing newline, which is modelled
faithfully here. -/
def isValidMemberName (name : String) : Bool :=
  let cs := name.toList
  identCore cs ||
    (match cs.getLast? with
     | some '\n' => identCore cs.dropLast
     | _ => false)

/-- Uppercase hexadecimal digit character. -/
def hexDigitUpper (n : Nat) : Char :=
  if n < 10 then Char.ofNat (48 + n) else Char.ofNat (55 + n)

/-- Structural helper for `natHexUpper`; the fuel dominates the digit
count so the `[]` branch is never reached from `natHexUpper`. -/
def natHexUpperAux : Nat → Nat → List Char
  | 0, _ => []
  | fuel + 1, n =>
    if n < 16 then [hexDigitUpper n]
    else natHexUpperAux fuel (n / 16) ++ [hexDigitUpper (n % 16)]

/-- Uppercase hexadecimal digits of a natural number (Python `"{:X}"`). -/
def natHexUpper (n : Nat) : List Char :=
  natHexUpperAux (n + 1) n

/-- Python `"{:X}".format(i)` for an arbitrary int (sign then digits). -/
def intHexUpper (i : Int) : String :=
  (if i < 0 then "-" else "") ++ String.mk (natHexUpper i.natAbs)

/-- `idc.BADADDR` on a 64-bit host. -/
def BADADDR : Int := 18446744073709551615

/-- The host database, abstracted as pure queries:
`strucId name` is `idc.get_struc_id(name)`;
`memberName sid off` is `idc.get_member_name(sid, off)` (`none` when the
host returns `None`);
`memberOffset sid name` is `idc.get_member_offset(sid, name)` (`-1` when
absent);
`typeStr t` is `str(getType(t))` (empty when the type does not parse);
`typeSize t` is `getType(t).get_size()`;
`addStrucResult name` is the id returned by `idc.add_struc(-1, name, 0)`. -/
structure Env where
  strucId : String → Int
  memberName : Int → Int → Option String
  memberOffset : Int → String → Int
  typeStr : String → String
  typeSize : String → Int
  addStrucResult : String → Int

/-- `isTypeValid` from `src/main.py`: `len(str(getType(type_name))) > 0`. -/
def isTypeValid (env : Env) (typeName : String) : Bool :=
  decide (0 < (env.typeStr typeName).length)

/-- `InputStatus` from `src/main.py` (an `IntEnum`). -/
inductive InputStatus where
  | INVALID
  | VALID
  | ALERT_MEMBER
  | ALERT_STRUCT
  deriving DecidableEq

/-- The integer value of the `IntEnum` member. -/
def InputStatus.toInt : InputStatus → Int
  | .INVALID => 0
  | .VALID => 1
  | .ALERT_MEMBER => 2
  | .ALERT_STRUCT => 3

/-- The widget attributes written by `validateParseInput`, plus the
`_LSTRUC` singleton's `name` field. -/
structure Vars where
  status : InputStatus
  overlapsMembers : Bool
  structName : String
  memberOff : Int
  memberType : String
  memberName : String
  lstrucName : String
  deriving DecidableEq

/-- Loop body of `getOverlappedMemberNames`: walks the remaining byte
indices carrying `names` (the result list), `added` (`added_names`) and
`gotRoff` (`got_roff`).  Python's `if name and ...` tests truthiness, so
`None` and the empty string are both skipped. -/
def gomAux (env : Env) (sid : Int) (off : Int) :
    List Nat → List (Int × String) → List String → Bool → List (Int × String)
  | [], names, _, _ => names
  | i :: rest, names, added, gotRoff =>
    match env.memberName sid (off + (i : Int)) with
    | none => gomAux env sid off rest names added gotRoff
    | some name =>
      if name ≠ "" && !added.contains name && !pyStartsWith name "gap" then
        -- `roff` is `off + i` once `got_roff` is set, and the member's own
        -- start offset (`get_member_offset`) for the first pair appended
        gomAux env sid off rest
          (names ++ [((if gotRoff then off + (i : Int) else env.memberOffset sid name), name)])
          (added ++ [name]) true
      else gomAux env sid off rest names added gotRoff

/-- `getOverlappedMemberNames` from `src/main.py`: scan offsets
`off, off+1, ..., off+size-1` of the structure's member table. -/
def getOverlappedMemberNames (env : Env) (strucName : String) (off : Int) (size : Nat) :
    List (Int × String) :=
  gomAux env (env.strucId strucName) off (List.range size) [] [] false

/-- `addSuffixIfTaken` from `src/main.py`, with the host lookup
abstracted into the predicate `taken` and the unbounded `while` loop
given explicit fuel (`none` means the loop did not finish within
`fuel` iterations). -/
def addSuffixIfTaken (taken : String → Bool) : Nat → String → Nat → Option String
  | 0, _, _ => none
  | fuel + 1, memName, i =>
    if taken memName then addSuffixIfTaken taken fuel (memName ++ "_" ++ toString i) (i + 1)
    else some memName

/-- The `i`-th candidate tried by `addSuffixIfTaken` starting from
`name`: `name`, `name_1`, `name_1_2`, ... -/
def candidateName (name : String) : Nat → String
  | 0 => name
  | k + 1 => candidateName name k ++ "_" ++ toString (k + 1)

/-- `Styles` from `src/main.py`; `_style.format(color)` applied. -/
def mkStyle (color : String) : String :=
  "border: 2px solid " ++ color ++ ";"

namespace Styles

def INVALID : String := mkStyle "orangered"

def VALID : String := mkStyle "lawngreen"

def ALERT_MEMBER : String := mkStyle "gold"

def ALERT_STRUCT : String := mkStyle "deepskyblue"

end Styles

/-- Tail of `validateParseInput` after the offset token has parsed
successfully (`src/main.py` lines 352-381).  `tokens` has between 2 and
4 entries at every call site, `t0` is `tokens[0]`, `newStruct` records
`get_struc_id(tokens[0]) == BADADDR`, `memOff` is the parsed offset. -/
def validateAfterOffset (env : Env) (tokens : List String) (t0 : String)
    (newStruct : Bool) (memOff : Int) (v : Vars) : Vars :=
  let strucId := env.strucId t0
  let v2 :=
    if newStruct then v
    else
      { v with overlapsMembers :=
          match env.memberName strucId memOff with
          | none => false
          | some nm => !pyStartsWith nm "gap" }
  let v3 := { v2 with status := if newStruct then InputStatus.ALERT_STRUCT else InputStatus.VALID }
  let p :=
    if tokens.length = 2 then ({ v3 with memberType := "_BYTE" }, true)
    else if isTypeValid env (tokens.getD 2 "") then ({ v3 with memberType := tokens.getD 2 "" }, true)
    else ({ v3 with status := InputStatus.INVALID }, false)
  let v4 := p.1
  let hasValidType := p.2
  let v5 :=
    if hasValidType then
      if (getOverlappedMemberNames env t0 memOff (env.typeSize v4.memberType).toNat).isEmpty then v4
      else { v4 with status := InputStatus.ALERT_MEMBER, overlapsMembers := true }
    else v4
  let v6 :=
    if tokens.length = 4 then
      if isValidMemberName (tokens.getD 3 "") then { v5 with memberName := tokens.getD 3 "" }
      else { v5 with status := InputStatus.INVALID }
    else { v5 with memberName := "field_" ++ intHexUpper memOff }
  { v6 with structName := t0, memberOff := memOff }

/-- Middle of `validateParseInput`: `tokens[1]` raising `IndexError` and
`parseOffset` raising `ValueError` are both caught by the bare
`except`, leaving the status `INVALID`. -/
def validateTokens (env : Env) (tokens : List String) (v : Vars) : Vars :=
  let t0 := tokens.getD 0 ""
  let newStruct := env.strucId t0 == BADADDR
  let v1 := if newStruct then v else { v with lstrucName := t0 }
  match tokens[1]? with
  | none => v1
  | some t1 =>
    match parseOffset t1 with
    | none => v1
    | some memOff => validateAfterOffset env tokens t0 newStruct memOff v1

/-- `SQWidget.validateParseInput` from `src/main.py`: resets `status`
and `overlapsMembers`, tokenizes the input-field text, and bails out
(leaving the status `INVALID`) unless `1 <= len(tokens) <= 4`.  GUI
side effects (completer word list, hint label text) are not modelled. -/
def validateParseInput (env : Env) (text : String) (v : Vars) : Vars :=
  let v0 : Vars := { v with status := InputStatus.INVALID, overlapsMembers := false }
  let tokens := tokenize text
  if 1 ≤ tokens.length ∧ tokens.length ≤ 4 then validateTokens env tokens v0 else v0

/-- The `match self.status` dispatch of `SQWidget.inputTextChanged`,
over the underlying `IntEnum` integer so that the `case _: raise`
branch is representable. -/
def styleDispatch (code : Int) : Except String String :=
  if code = 0 then Except.ok Styles.INVALID
  else if code = 1 then Except.ok Styles.VALID
  else if code = 2 then Except.ok Styles.ALERT_MEMBER
  else if code = 3 then Except.ok Styles.ALERT_STRUCT
  else Except.error "inputTextChanged(): unknown InputStatus"

/-- The style each `InputStatus` is associated with in
`inputTextChanged`'s `match`. -/
def statusStyle : InputStatus → String
  | .INVALID => Styles.INVALID
  | .VALID => Styles.VALID
  | .ALERT_MEMBER => Styles.ALERT_MEMBER
  | .ALERT_STRUCT => Styles.ALERT_STRUCT

/-- `SQWidget.inputTextChanged`: re-validate, then set the input-field
style from the status (the hint show/hide calls are GUI-only). -/
def inputTextChanged (env : Env) (text : String) (v : Vars) : Vars × Except String String :=
  let v2 := validateParseInput env text v
  (v2, styleDispatch v2.status.toInt)

/-- The host-database mutations `SQWidget._addStrucMember` can issue,
in the order it issues them. -/
inductive HostCall where
  | addStruc (name : String)
  | delStrucMember (sid : Int) (off : Int)
  | addUdm (memName : String) (memType : String) (bitOff : Int)
  | expandStruc (sid : Int) (off : Int) (delta : Int)
  deriving DecidableEq

/-- `SQWidget._addStrucMember` from `src/main.py`, as the trace of host
mutations it performs, together with the updated `_LSTRUC` state and
the member name finally used.  Two host behaviours are baked in: a
structure just created by `idc.add_struc` is empty (its type has size 0
and `get_member_offset` is `-1` for every name, so `addSuffixIfTaken`
keeps the name unchanged); everything else is read from `env`, which is
only queried before the mutations.  `fuel` bounds the `addSuffixIfTaken`
loop; `none` means that loop did not finish. -/
def addStrucMemberCommit (env : Env) (v : Vars) (fuel : Nat) :
    Option (List HostCall × Vars × String) :=
  let v1 := { v with lstrucName := v.structName }
  let sid0 := env.strucId v.structName
  let newStruct := sid0 == BADADDR
  let sid := if newStruct then env.addStrucResult v.structName else sid0
  let createCalls : List HostCall := if newStruct then [.addStruc v.structName] else []
  let delCalls : List HostCall :=
    if newStruct then []
    else (List.range (env.typeSize v.memberType).toNat).map fun i =>
      .delStrucMember sid (v.memberOff + (i : Int))
  let taken : String → Bool := fun nm =>
    if newStruct then false else env.memberOffset sid nm != -1
  match addSuffixIfTaken taken fuel v.memberName 1 with
  | none => none
  | some memName =>
    let strucSize : Int := if newStruct then 0 else env.typeSize v.structName
    let tailCalls : List HostCall :=
      if v.memberOff > strucSize then
        [.addUdm memName v.memberType (strucSize * 8),
         .expandStruc sid strucSize (v.memberOff - strucSize)]
      else
        [.addUdm memName v.memberType (v.memberOff * 8)]
    some (createCalls ++ delCalls ++ tailCalls, v1, memName)

/-- Modelled from the spec and claim C3's words, for comparison with
`addStrucMemberCommit`: in the patch case the claimed order is the
deletions, then — when `memberOff` exceeds the structure's current
size — the expansion first, and then the member addition at
`memberOff`. -/
def claimedPatchTrace (env : Env) (v : Vars) (memName : String) : List HostCall :=
  let sid := env.strucId v.structName
  let delCalls : List HostCall :=
    (List.range (env.typeSize v.memberType).toNat).map fun i =>
      .delStrucMember sid (v.memberOff + (i : Int))
  let strucSize : Int := env.typeSize v.structName
  if v.memberOff > strucSize then
    delCalls ++ [.expandStruc sid strucSize (v.memberOff - strucSize),
                 .addUdm memName v.memberType (v.memberOff * 8)]
  else
    delCalls ++ [.addUdm memName v.memberType (v.memberOff * 8)]

/-- The keys handled by `SQWidget.eventFilter`. -/
inductive Key where
  | ret
  | tab
  | up
  | down
  deriving DecidableEq

/-- The widget state touched by `SQWidget.eventFilter`. -/
structure WState where
  vars : Vars
  inputText : String
  historyLines : List String
  historyIdx : Nat
  isOpen : Bool
  deriving DecidableEq

/-- `QLineEdit.setText`: Qt emits `textChanged` (which runs
`inputTextChanged`) only when the text actually changes. -/
def setTextAndSignal (env : Env) (st : WState) (t : String) : WState :=
  if t = st.inputText then st
  else
    let st1 := { st with inputText := t }
    { st1 with vars := (inputTextChanged env t st1.vars).1 }

/-- `SQWidget.eventFilter` on a key press, returning the new state and
whether `addStrucMember` (the commit) was called.  `Return`: commit,
record the line as history entry 0, close; `Up`/`Down`: move through
the history (saturating) and set the field text; `Tab` only moves the
cursor. -/
def eventFilterKey (env : Env) (st : WState) (k : Key) : WState × Bool :=
  match k with
  | .ret =>
    if st.vars.status ≠ InputStatus.INVALID then
      ({ st with historyLines := st.historyLines.set 0 st.inputText, isOpen := false }, true)
    else (st, false)
  | .tab => (st, false)
  | .up =>
    if st.historyLines.isEmpty then (st, false)
    else
      let idx := min (st.historyLines.length - 1) (st.historyIdx + 1)
      let st1 := { st with historyIdx := idx }
      (setTextAndSignal env st1 (st.historyLines.getD idx ""), false)
  | .down =>
    if st.historyLines.isEmpty then (st, false)
    else
      let idx := st.historyIdx - 1
      let st1 := { st with historyIdx := idx }
      (setTextAndSignal env st1 (st.historyLines.getD idx ""), false)

/-- A sequence of key presses, keeping only the resulting state. -/
def pressSeq (env : Env) (st : WState) (ks : List Key) : WState :=
  ks.foldl (fun s k => (eventFilterKey env s k).1) st

/-! ### Concrete instances used by witnesses and counterexamples -/

/-- A small concrete host state: no structures, every type parses with
size 1. -/
def envEx : Env where
  strucId := fun _ => BADADDR
  memberName := fun _ _ => none
  memberOffset := fun _ _ => -1
  typeStr := fun t => t
  typeSize := fun _ => 1
  addStrucResult := fun _ => 1

/-- Concrete widget attributes. -/
def varsEx : Vars where
  status := InputStatus.INVALID
  overlapsMembers := false
  structName := ""
  memberOff := 0
  memberType := ""
  memberName := ""
  lstrucName := ""

/-- Concrete widget state with a two-entry history. -/
def stEx : WState where
  vars := varsEx
  inputText := ""
  historyLines := ["a", "b"]
  historyIdx := 0
  isOpen := true

/-! ### Claim C8 -/

/-- The claim's reading of `parseOffset`: strip trailing `h` characters,
then trailing `L` characters, then trailing `u` characters, and read the
remainder as a base-16 integer. -/
def parseOffsetSpec (arg : String) : Option Int :=
  let a1 := pyRstrip arg ['h']
  let a2 := pyRstrip a1 ['L']
  let a3 := pyRstrip a2 ['u']
  pyIntHex a3

theorem contains_LL (c : Char) : (['L', 'L'] : List Char).contains c = (['L'] : List Char).contains c := by
  simp [List.contains]

theorem pyRstrip_LL (s : String) : pyRstrip s ['L', 'L'] = pyRstrip s ['L'] := by
  unfold pyRstrip
  have : (fun c => (['L', 'L'] : List Char).contains c) = fun c => (['L'] : List Char).contains c := by
    funext c
    exact contains_LL c
  rw [this]

/-- C8: `parseOffset` strips trailing `h` characters, then trailing `L`
characters, then trailing `u` characters (Python `rstrip` treats `"LL"`
as the character set `{'L'}`), then reads the remainder as a Python
base-16 integer; in particular the decimal-looking `"10"` is read as
hexadecimal 16. -/
theorem c8_parseOffset_strips_then_hex :
    (∀ s : String, parseOffset s = parseOffsetSpec s) ∧ parseOffset "10" = some 16 := by
  refine ⟨fun s => ?_, by decide⟩
  unfold parseOffset parseOffsetSpec
  simp only [pyRstrip_LL]

/-! ### Claim C6 -/

/-- C6: after any run of `validateParseInput` the status is one of the
four `InputStatus` values, so the `case _: raise` branch of
`inputTextChanged` is unreachable and the style set on the input field
is exactly the style associated with the current status. -/
theorem c6_inputTextChanged_style_total (env : Env) (text : String) (v : Vars) :
    (inputTextChanged env text v).2 =
      Except.ok (statusStyle (validateParseInput env text v).status) := by
  unfold inputTextChanged
  cases h : (validateParseInput env text v).status <;>
    simp [h, styleDispatch, statusStyle, InputStatus.toInt]

/-! ### Claim C7 -/

/-- C7: `validateParseInput` is deterministic: two runs from the same
input-field text, host database state, and widget state assign
identical values to `status`, `structName`, `memberOff`, `memberType`,
`memberName` and `overlapsMembers` (the embedding is a pure function of
those inputs). -/
theorem c7_validateParseInput_deterministic (env : Env) (text : String) (v1 v2 : Vars)
    (h : v1 = v2) :
    (validateParseInput env text v1).status = (validateParseInput env text v2).status ∧
    (validateParseInput env text v1).structName = (validateParseInput env text v2).structName ∧
    (validateParseInput env text v1).memberOff = (validateParseInput env text v2).memberOff ∧
    (validateParseInput env text v1).memberType = (validateParseInput env text v2).memberType ∧
    (validateParseInput env text v1).memberName = (validateParseInput env text v2).memberName ∧
    (validateParseInput env text v1).overlapsMembers =
      (validateParseInput env text v2).overlapsMembers := by
  subst h
  exact ⟨rfl, rfl, rfl, rfl, rfl, rfl⟩

/-- Witness for C7 at a concrete input. -/
theorem c7_witness :
    (validateParseInput envEx "s 10" varsEx).status = (validateParseInput envEx "s 10" varsEx).status ∧
    (validateParseInput envEx "s 10" varsEx).structName = (validateParseInput envEx "s 10" varsEx).structName ∧
    (validateParseInput envEx "s 10" varsEx).memberOff = (validateParseInput envEx "s 10" varsEx).memberOff ∧
    (validateParseInput envEx "s 10" varsEx).memberType = (validateParseInput envEx "s 10" varsEx).memberType ∧
    (validateParseInput envEx "s 10" varsEx).memberName = (validateParseInput envEx "s 10" varsEx).memberName ∧
    (validateParseInput envEx "s 10" varsEx).overlapsMembers =
      (validateParseInput envEx "s 10" varsEx).overlapsMembers :=
  c7_validateParseInput_deterministic envEx "s 10" varsEx varsEx rfl

/-! ### Claim C10 -/

/-- The taken-test `_addStrucMember` uses for `addSuffixIfTaken`:
`idc.get_member_offset(struc_id, mem_name) != -1`. -/
def memberTaken (env : Env) (sid : Int) : String → Bool :=
  fun nm => env.memberOffset sid nm != -1

theorem addSuffixIfTaken_go (taken : String → Bool) (name : String) (k : Nat)
    (hfree : taken (candidateName name k) = false)
    (hmin : ∀ j, j < k → taken (candidateName name j) = true) :
    ∀ fuel j, j ≤ k → k - j < fuel →
      addSuffixIfTaken taken fuel (candidateName name j) (j + 1) =
        some (candidateName name k) := by
  intro fuel
  induction fuel with
  | zero => intro j _ hf; omega
  | succ f ih =>
    intro j hj _
    by_cases hjk : j = k
    · subst hjk
      simp [addSuffixIfTaken, hfree]
    · have hjlt : j < k := by omega
      have ht := hmin j hjlt
      have hcand : candidateName name j ++ "_" ++ toString (j + 1) = candidateName name (j + 1) := rfl
      simp only [addSuffixIfTaken, ht, if_true, hcand]
      exact ih (j + 1) (by omega) (by omega)

/-- C10: when some candidate in `name, name_1, name_1_2, ...` is free
(`get_member_offset` returns -1) — in particular when only finitely
many are taken — `addSuffixIfTaken` terminates (within any fuel bound
past the first free index) and returns the first free candidate, which
therefore collides with no existing member. -/
theorem c10_addSuffixIfTaken_first_free (env : Env) (sid : Int) (name : String)
    (k fuel : Nat)
    (hfree : memberTaken env sid (candidateName name k) = false)
    (hmin : ∀ j, j < k → memberTaken env sid (candidateName name j) = true)
    (hfuel : k < fuel) :
    addSuffixIfTaken (memberTaken env sid) fuel name 1 = some (candidateName name k) ∧
    env.memberOffset sid (candidateName name k) = -1 := by
  constructor
  · have h := addSuffixIfTaken_go (memberTaken env sid) name k hfree hmin fuel 0
      (by omega) (by omega)
    simpa [candidateName] using h
  · have h : ¬ (env.memberOffset sid (candidateName name k) ≠ -1) := by
      simpa [memberTaken, bne_iff_ne] using congrArg (· = false) hfree |>.mpr rfl
    omega

/-- A host state for the C10 witness: `"m"` is a taken member name of
structure id 0, `"m_1"` is free. -/
def envC10 : Env :=
  { envEx with memberOffset := fun _ nm => if nm = "m" then 3 else -1 }

/-- Witness for C10: the claim at `name = "m"`, first free index 1. -/
theorem c10_witness :
    addSuffixIfTaken (memberTaken envC10 0) 5 "m" 1 = some (candidateName "m" 1) ∧
    envC10.memberOffset 0 (candidateName "m" 1) = -1 := by
  have h := c10_addSuffixIfTaken_first_free envC10 0 "m" 1 5 (by decide)
    (by
      intro j hj
      have hj0 : j = 0 := by omega
      subst hj0
      decide)
    (by omega)
  exact h

/-! ### Claim C2 -/

theorem gomAux_snd_mem (env : Env) (sid : Int) (off : Int) :
    ∀ (l : List Nat) (names : List (Int × String)) (added : List String) (g : Bool),
      added = names.map Prod.snd →
      ∀ nm : String,
        (nm ∈ (gomAux env sid off l names added g).map Prod.snd ↔
          nm ∈ added ∨ ∃ i ∈ l, env.memberName sid (off + (i : Int)) = some nm ∧
            nm ≠ "" ∧ pyStartsWith nm "gap" = false) := by
  intro l
  induction l with
  | nil =>
    intro names added g hadd nm
    subst hadd
    simp [gomAux]
  | cons i rest ih =>
    intro names added g hadd nm
    cases hmn : env.memberName sid (off + (i : Int)) with
    | none =>
      simp only [gomAux, hmn]
      rw [ih names added g hadd nm]
      constructor
      · rintro (h | ⟨j, hj, hmem, hne2, hgap⟩)
        · exact Or.inl h
        · exact Or.inr ⟨j, List.mem_cons_of_mem _ hj, hmem, hne2, hgap⟩
      · rintro (h | ⟨j, hj, hmem, hne2, hgap⟩)
        · exact Or.inl h
        · rcases List.mem_cons.mp hj with hj | hj
          · subst hj
            rw [hmn] at hmem
            simp at hmem
          · exact Or.inr ⟨j, hj, hmem, hne2, hgap⟩
    | some name =>
      simp only [gomAux, hmn]
      by_cases hcb : (decide (name ≠ "") && !added.contains name && !pyStartsWith name "gap") = true
      · have hfacts : name ≠ "" ∧ name ∉ added ∧ pyStartsWith name "gap" = false := by
          simp only [Bool.and_eq_true, Bool.not_eq_true', decide_eq_true_eq] at hcb
          refine ⟨hcb.1.1, ?_, hcb.2⟩
          have h2 := hcb.1.2
          simpa using h2
        rw [if_pos hcb]
        rw [ih (names ++ [((if g = true then off + (i : Int) else env.memberOffset sid name), name)])
          (added ++ [name]) true (by simp [hadd]) nm]
        constructor
        · rintro (h | ⟨j, hj, hmem, hne2, hgap⟩)
          · rcases List.mem_append.mp h with h | h
            · exact Or.inl h
            · have hname : nm = name := by simpa using h
              subst hname
              exact Or.inr ⟨i, List.mem_cons_self _ _, hmn, hfacts.1, hfacts.2.2⟩
          · exact Or.inr ⟨j, List.mem_cons_of_mem _ hj, hmem, hne2, hgap⟩
        · rintro (h | ⟨j, hj, hmem, hne2, hgap⟩)
          · exact Or.inl (List.mem_append.mpr (Or.inl h))
          · rcases List.mem_cons.mp hj with hj | hj
            · subst hj
              rw [hmn] at hmem
              have hname : name = nm := by injection hmem
              subst hname
              exact Or.inl (List.mem_append.mpr (Or.inr (by simp)))
            · exact Or.inr ⟨j, hj, hmem, hne2, hgap⟩
      · rw [if_neg hcb]
        rw [ih names added g hadd nm]
        have hfacts : name = "" ∨ name ∈ added ∨ pyStartsWith name "gap" = true := by
          simp only [Bool.and_eq_true, Bool.not_eq_true', decide_eq_true_eq, not_and] at hcb
          by_cases h1 : name = ""
          · exact Or.inl h1
          · by_cases h2 : name ∈ added
            · exact Or.inr (Or.inl h2)
            · refine Or.inr (Or.inr ?_)
              have h3 := hcb ⟨h1, by simpa using h2⟩
              simpa using h3
        constructor
        · rintro (h | ⟨j, hj, hmem, hne2, hgap⟩)
          · exact Or.inl h
          · exact Or.inr ⟨j, List.mem_cons_of_mem _ hj, hmem, hne2, hgap⟩
        · rintro (h | ⟨j, hj, hmem, hne2, hgap⟩)
          · exact Or.inl h
          · rcases List.mem_cons.mp hj with hj | hj
            · subst hj
              rw [hmn] at hmem
              have hname : name = nm := by injection hmem
              subst hname
              rcases hfacts with h | h | h
              · exact absurd h hne2
              · exact Or.inl h
              · rw [h] at hgap
                simp at hgap
            · exact Or.inr ⟨j, hj, hmem, hne2, hgap⟩

theorem gomAux_snd_nodup (env : Env) (sid : Int) (off : Int) :
    ∀ (l : List Nat) (names : List (Int × String)) (added : List String) (g : Bool),
      added = names.map Prod.snd → added.Nodup →
      ((gomAux env sid off l names added g).map Prod.snd).Nodup := by
  intro l
  induction l with
  | nil =>
    intro names added g hadd hnd
    subst hadd
    simpa [gomAux] using hnd
  | cons i rest ih =>
    intro names added g hadd hnd
    cases hmn : env.memberName sid (off + (i : Int)) with
    | none =>
      simp only [gomAux, hmn]
      exact ih names added g hadd hnd
    | some name =>
      simp only [gomAux, hmn]
      by_cases hcb : (decide (name ≠ "") && !added.contains name && !pyStartsWith name "gap") = true
      · rw [if_pos hcb]
        have hnotmem : name ∉ added := by
          simp only [Bool.and_eq_true, Bool.not_eq_true', decide_eq_true_eq] at hcb
          simpa using hcb.1.2
        exact ih (names ++ [((if g = true then off + (i : Int) else env.memberOffset sid name), name)])
          (added ++ [name]) true (by simp [hadd]) (by simp [List.nodup_append, hnd, hnotmem])
      · rw [if_neg hcb]
        exact ih names added g hadd hnd

/-- C2: over exactly the `size` byte offsets `off .. off+size-1`,
`getOverlappedMemberNames` returns one `(offset, name)` pair for each
distinct member name found in the range that does not start with
`"gap"`, each name at most once.  The hypothesis says the host never
reports the empty string as a member name (Python's truthiness test
would silently skip it). -/
theorem c2_getOverlappedMemberNames_names (env : Env) (strucName : String) (off : Int)
    (size : Nat)
    (hne : ∀ o : Int, env.memberName (env.strucId strucName) o ≠ some "") :
    (∀ nm : String,
        (nm ∈ (getOverlappedMemberNames env strucName off size).map Prod.snd ↔
          ∃ i, i < size ∧ env.memberName (env.strucId strucName) (off + (i : Int)) = some nm ∧
            pyStartsWith nm "gap" = false)) ∧
    ((getOverlappedMemberNames env strucName off size).map Prod.snd).Nodup := by
  constructor
  · intro nm
    rw [getOverlappedMemberNames,
      gomAux_snd_mem env (env.strucId strucName) off (List.range size) [] [] false rfl nm]
    simp only [List.not_mem_nil, false_or, List.mem_range]
    constructor
    · rintro ⟨i, hi, hmem, _, hgap⟩
      exact ⟨i, hi, hmem, hgap⟩
    · rintro ⟨i, hi, hmem, hgap⟩
      refine ⟨i, hi, hmem, ?_, hgap⟩
      intro h
      subst h
      exact hne _ hmem
  · exact gomAux_snd_nodup env (env.strucId strucName) off (List.range size) [] [] false rfl
      (by simp)

/-- A host state for the C2 witness: structure id 0 has member `"x"` at
offsets 1 and 2, a `"gap_3"` filler at offset 3, and nothing else. -/
def envC2 : Env :=
  { envEx with
    strucId := fun _ => 0
    memberName := fun _ o =>
      if o = 1 ∨ o = 2 then some "x" else if o = 3 then some "gap_3" else none
    memberOffset := fun _ nm => if nm = "x" then 1 else -1 }

/-- Witness for C2 at a concrete structure, `off = 0`, `size = 4`. -/
theorem c2_witness :
    (∀ nm : String,
        (nm ∈ (getOverlappedMemberNames envC2 "S" 0 4).map Prod.snd ↔
          ∃ i : Nat, i < 4 ∧ envC2.memberName (envC2.strucId "S") (0 + (i : Int)) = some nm ∧
            pyStartsWith nm "gap" = false)) ∧
    ((getOverlappedMemberNames envC2 "S" 0 4).map Prod.snd).Nodup := by
  have h := c2_getOverlappedMemberNames_names envC2 "S" 0 4 (by
    intro o
    by_cases h1 : o = 1 ∨ o = 2
    · simp [envC2, h1]
    · by_cases h2 : o = 3 <;> simp [envC2, h1, h2])
  exact h

/-! ### Claims C1 and C9 -/

theorem validateAfterOffset_status (env : Env) (tokens : List String) (t0 : String)
    (ns : Bool) (memOff : Int) (v : Vars) :
    ((validateAfterOffset env tokens t0 ns memOff v).status ≠ InputStatus.INVALID) ↔
      ((tokens.length = 2 ∨ isTypeValid env (tokens.getD 2 "") = true) ∧
        (tokens.length = 4 → isValidMemberName (tokens.getD 3 "") = true)) := by
  unfold validateAfterOffset
  by_cases h2 : tokens.length = 2 <;>
    by_cases h4 : tokens.length = 4 <;>
      cases hty : isTypeValid env (tokens.getD 2 "") <;>
        cases hnm : isValidMemberName (tokens.getD 3 "") <;>
          cases ns <;>
            simp [h2, h4, hty, hnm] <;>
              split <;> simp_all

theorem validateAfterOffset_fields (env : Env) (tokens : List String) (t0 : String)
    (ns : Bool) (memOff : Int) (v : Vars) :
    (validateAfterOffset env tokens t0 ns memOff v).structName = t0 ∧
    (validateAfterOffset env tokens t0 ns memOff v).memberOff = memOff ∧
    (tokens.length = 2 → (validateAfterOffset env tokens t0 ns memOff v).memberType = "_BYTE") ∧
    (tokens.length ≠ 4 →
      (validateAfterOffset env tokens t0 ns memOff v).memberName =
        "field_" ++ intHexUpper memOff) := by
  unfold validateAfterOffset
  by_cases h2 : tokens.length = 2 <;>
    by_cases h4 : tokens.length = 4 <;>
      cases hty : isTypeValid env (tokens.getD 2 "") <;>
        cases hnm : isValidMemberName (tokens.getD 3 "") <;>
          cases ns <;>
            simp [h2, h4, hty, hnm] <;>
              split <;> simp_all

theorem validateTokens_short_status (env : Env) (tokens : List String) (v : Vars)
    (h : tokens[1]? = none) : (validateTokens env tokens v).status = v.status := by
  simp only [validateTokens, h]
  split <;> rfl

theorem validateTokens_offset_fail_status (env : Env) (t0 t1 : String) (rest : List String)
    (v : Vars) (h : parseOffset t1 = none) :
    (validateTokens env (t0 :: t1 :: rest) v).status = v.status := by
  simp only [validateTokens, List.getElem?_cons_succ, List.getElem?_cons_zero, h]
  split <;> rfl

theorem validateTokens_offset_ok (env : Env) (t0 t1 : String) (rest : List String)
    (v : Vars) (mo : Int) (h : parseOffset t1 = some mo) :
    validateTokens env (t0 :: t1 :: rest) v =
      validateAfterOffset env (t0 :: t1 :: rest) t0 (env.strucId t0 == BADADDR) mo
        (if env.strucId t0 == BADADDR then v else { v with lstrucName := t0 }) := by
  simp only [validateTokens, List.getElem?_cons_succ, List.getElem?_cons_zero, h,
    List.getD_cons_zero]

/-- C1: the status after `validateParseInput` is non-`INVALID` exactly
when the comma-deleted whitespace-split token list has 2 to 4 entries,
the second token parses as an offset, a third token (when present) is a
valid type, and a fourth token (when present) matches the identifier
pattern; every other input leaves the status `INVALID`. -/
theorem c1_validateParseInput_status_iff (env : Env) (text : String) (v : Vars) :
    ((validateParseInput env text v).status ≠ InputStatus.INVALID) ↔
      (2 ≤ (tokenize text).length ∧ (tokenize text).length ≤ 4 ∧
        (parseOffset ((tokenize text).getD 1 "")).isSome = true ∧
        (3 ≤ (tokenize text).length → isTypeValid env ((tokenize text).getD 2 "") = true) ∧
        ((tokenize text).length = 4 → isValidMemberName ((tokenize text).getD 3 "") = true)) := by
  unfold validateParseInput
  cases htk : tokenize text with
  | nil => simp
  | cons t0 rest =>
    cases rest with
    | nil =>
      rw [if_pos (by simp)]
      rw [validateTokens_short_status env [t0] _ rfl]
      simp
    | cons t1 rest2 =>
      simp only [List.length_cons]
      by_cases hlen : rest2.length + 1 + 1 ≤ 4
      · rw [if_pos ⟨by omega, by omega⟩]
        cases hpo : parseOffset t1 with
        | none =>
          rw [validateTokens_offset_fail_status env t0 t1 rest2 _ hpo]
          simp [hpo]
        | some mo =>
          rw [validateTokens_offset_ok env t0 t1 rest2 _ mo hpo]
          rw [validateAfterOffset_status]
          simp only [List.length_cons, List.getD_cons_succ, List.getD_cons_zero]
          constructor
          · rintro ⟨hAB, hC⟩
            refine ⟨by omega, by omega, by simp [hpo], ?_, hC⟩
            intro h3
            rcases hAB with h | h
            · omega
            · exact h
          · rintro ⟨-, h4, -, hB, hC⟩
            refine ⟨?_, hC⟩
            by_cases h0 : rest2.length = 0
            · exact Or.inl (by omega)
            · exact Or.inr (hB (by omega))
      · rw [if_neg (by omega)]
        constructor
        · intro hcon
          exact absurd rfl hcon
        · rintro ⟨-, hle, -, -, -⟩
          omega

/-- C9: on any input that validation does not mark `INVALID`, a 2-token
line gets member type `"_BYTE"`, and a line with fewer than 4 tokens
gets member name `"field_"` followed by the parsed offset in uppercase
hexadecimal. -/
theorem c9_default_type_and_name (env : Env) (text : String) (v : Vars)
    (h : (validateParseInput env text v).status ≠ InputStatus.INVALID) :
    ((tokenize text).length = 2 → (validateParseInput env text v).memberType = "_BYTE") ∧
    ((tokenize text).length < 4 →
      (validateParseInput env text v).memberName =
        "field_" ++ intHexUpper (validateParseInput env text v).memberOff) := by
  unfold validateParseInput at h ⊢
  cases htk : tokenize text with
  | nil =>
    rw [htk] at h
    simp at h
  | cons t0 rest =>
    rw [htk] at h
    cases rest with
    | nil =>
      exfalso
      apply h
      rw [if_pos (by simp)]
      exact validateTokens_short_status env [t0] _ rfl
    | cons t1 rest2 =>
      simp only [List.length_cons] at h ⊢
      by_cases hlen : rest2.length + 1 + 1 ≤ 4
      · rw [if_pos ⟨by omega, by omega⟩] at h ⊢
        cases hpo : parseOffset t1 with
        | none =>
          exfalso
          apply h
          exact validateTokens_offset_fail_status env t0 t1 rest2 _ hpo
        | some mo =>
          rw [validateTokens_offset_ok env t0 t1 rest2 _ mo hpo] at h ⊢
          constructor
          · intro h2
            exact (validateAfterOffset_fields env (t0 :: t1 :: rest2) t0
              (env.strucId t0 == BADADDR) mo _).2.2.1 (by simp only [List.length_cons]; omega)
          · intro h4
            have hf := validateAfterOffset_fields env (t0 :: t1 :: rest2) t0
              (env.strucId t0 == BADADDR) mo
              (if env.strucId t0 == BADADDR then { v with status := InputStatus.INVALID, overlapsMembers := false } else { v with status := InputStatus.INVALID, overlapsMembers := false, lstrucName := t0 })
            rw [hf.2.1]
            exact hf.2.2.2 (by simp only [List.length_cons]; omega)
      · exfalso
        apply h
        rw [if_neg (by omega)]

/-- Witness for C9 at the concrete input `"s 10"` (a new structure, so
the status is `ALERT_STRUCT`). -/
theorem c9_witness :
    (validateParseInput envEx "s 10" varsEx).status ≠ InputStatus.INVALID ∧
    (((tokenize "s 10").length = 2 →
        (validateParseInput envEx "s 10" varsEx).memberType = "_BYTE") ∧
      ((tokenize "s 10").length < 4 →
        (validateParseInput envEx "s 10" varsEx).memberName =
          "field_" ++ intHexUpper (validateParseInput envEx "s 10" varsEx).memberOff)) := by
  have h : (validateParseInput envEx "s 10" varsEx).status ≠ InputStatus.INVALID := by decide
  exact ⟨h, c9_default_type_and_name envEx "s 10" varsEx h⟩

/-! ### Claim C3 -/

/-- A host state with one structure `"S"` (id 7, type size 2 bytes);
`"_BYTE"` has size 1 and no member name is taken. -/
def envC3 : Env where
  strucId := fun nm => if nm = "S" then 7 else BADADDR
  memberName := fun _ _ => none
  memberOffset := fun _ _ => -1
  typeStr := fun t => t
  typeSize := fun t => if t = "S" then 2 else 1
  addStrucResult := fun _ => 99

/-- Committing member `"m"` of type `"_BYTE"` at offset 4 of `"S"`
(beyond the structure's current size 2). -/
def varsC3 : Vars :=
  { varsEx with structName := "S", memberOff := 4, memberType := "_BYTE", memberName := "m" }

/-- C3 counterexample: at this concrete commit the code issues
`add_udm` (at the current end of the structure) *before*
`expand_struc`, so the trace differs from the claimed
delete-expand-add order. -/
theorem c3_counterexample_add_before_expand :
    (addStrucMemberCommit envC3 varsC3 4).map (fun r => r.1) =
      some [HostCall.delStrucMember 7 4, HostCall.addUdm "m" "_BYTE" 16,
        HostCall.expandStruc 7 2 2] ∧
    (addStrucMemberCommit envC3 varsC3 4).map (fun r => r.1) ≠
      some (claimedPatchTrace envC3 varsC3 "m") := by
  constructor <;> decide

/-- C3 (amended): on commit, when `structName` is not in the database a
new empty structure is created and no member is deleted; otherwise the
existing member bytes at `[memberOff, memberOff + size(memberType))`
are deleted first.  Then the member is added — at the structure's
current end, with the expansion issued *after* the `add_udm` call, when
`memberOff` exceeds the current size; at `memberOff` otherwise — so an
occupied offset is replaced, not an error. -/
theorem c3_amended_commit_trace (env : Env) (v : Vars) (fuel : Nat)
    (trace : List HostCall) (v1 : Vars) (memName : String)
    (h : addStrucMemberCommit env v fuel = some (trace, v1, memName)) :
    (env.strucId v.structName = BADADDR →
      trace = HostCall.addStruc v.structName ::
        (if v.memberOff > 0 then
          [HostCall.addUdm memName v.memberType 0,
           HostCall.expandStruc (env.addStrucResult v.structName) 0 v.memberOff]
         else [HostCall.addUdm memName v.memberType (v.memberOff * 8)])) ∧
    (env.strucId v.structName ≠ BADADDR →
      trace =
        ((List.range (env.typeSize v.memberType).toNat).map fun i =>
          HostCall.delStrucMember (env.strucId v.structName) (v.memberOff + (i : Int))) ++
        (if v.memberOff > env.typeSize v.structName then
          [HostCall.addUdm memName v.memberType (env.typeSize v.structName * 8),
           HostCall.expandStruc (env.strucId v.structName) (env.typeSize v.structName)
             (v.memberOff - env.typeSize v.structName)]
         else [HostCall.addUdm memName v.memberType (v.memberOff * 8)])) := by
  unfold addStrucMemberCommit at h
  by_cases hb : env.strucId v.structName = BADADDR
  · have hbeq : (env.strucId v.structName == BADADDR) = true := by simp [hb]
    simp only [hbeq, if_true] at h
    refine ⟨fun _ => ?_, fun hne => absurd hb hne⟩
    cases hsf : addSuffixIfTaken (fun _ => false) fuel v.memberName 1 with
    | none =>
      rw [hsf] at h
      cases h
    | some m =>
      rw [hsf] at h
      simp only [Option.some.injEq, Prod.mk.injEq] at h
      obtain ⟨htr, -, hm⟩ := h
      subst hm
      rw [← htr]
      by_cases hoff : v.memberOff > 0
      · rw [if_pos hoff, if_pos hoff]
        simp
      · rw [if_neg hoff, if_neg hoff]
        simp
  · have hbeq : (env.strucId v.structName == BADADDR) = false := by simp [hb]
    simp only [hbeq, Bool.false_eq_true, if_false] at h
    refine ⟨fun heq => absurd heq hb, fun _ => ?_⟩
    cases hsf : addSuffixIfTaken (fun nm => env.memberOffset (env.strucId v.structName) nm != -1)
        fuel v.memberName 1 with
    | none =>
      rw [hsf] at h
      cases h
    | some m =>
      rw [hsf] at h
      simp only [Option.some.injEq, Prod.mk.injEq] at h
      obtain ⟨htr, -, hm⟩ := h
      subst hm
      rw [← htr]
      simp

/-- Witness for C3 (amended) at the concrete commit of `varsC3`. -/
theorem c3_witness :
    [HostCall.delStrucMember 7 4, HostCall.addUdm "m" "_BYTE" 16, HostCall.expandStruc 7 2 2] =
      ((List.range (envC3.typeSize varsC3.memberType).toNat).map fun i =>
        HostCall.delStrucMember (envC3.strucId varsC3.structName) (varsC3.memberOff + (i : Int))) ++
      (if varsC3.memberOff > envC3.typeSize varsC3.structName then
        [HostCall.addUdm "m" varsC3.memberType (envC3.typeSize varsC3.structName * 8),
         HostCall.expandStruc (envC3.strucId varsC3.structName) (envC3.typeSize varsC3.structName)
           (varsC3.memberOff - envC3.typeSize varsC3.structName)]
       else [HostCall.addUdm "m" varsC3.memberType (varsC3.memberOff * 8)]) := by
  have h : addStrucMemberCommit envC3 varsC3 4 =
      some ([HostCall.delStrucMember 7 4, HostCall.addUdm "m" "_BYTE" 16, HostCall.expandStruc 7 2 2], { varsC3 with lstrucName := "S" }, "m") := by
    decide
  exact (c3_amended_commit_trace envC3 varsC3 4 _ _ _ h).2 (by decide)

/-! ### Claim C4 -/

/-- C4: the Return key commits (calls `addStrucMember`, records the
current line as history entry 0, closes the widget) exactly when the
status is not `INVALID`; on `INVALID` the state is untouched and no
commit happens. -/
theorem c4_return_commits_iff (env : Env) (st : WState) (hhl : st.historyLines ≠ []) :
    (((eventFilterKey env st Key.ret).2 = true ∧
        (eventFilterKey env st Key.ret).1.historyLines.head? = some st.inputText ∧
        (eventFilterKey env st Key.ret).1.isOpen = false) ↔
      st.vars.status ≠ InputStatus.INVALID) ∧
    (st.vars.status = InputStatus.INVALID →
      (eventFilterKey env st Key.ret).1 = st ∧ (eventFilterKey env st Key.ret).2 = false) := by
  by_cases hs : st.vars.status = InputStatus.INVALID
  · simp [eventFilterKey, hs]
  · cases hl : st.historyLines with
    | nil => exact absurd hl hhl
    | cons a as => simp [eventFilterKey, hs, hl]

/-- Witness for C4 at the concrete state `stEx` (status `INVALID`). -/
theorem c4_witness :
    (((eventFilterKey envEx stEx Key.ret).2 = true ∧
        (eventFilterKey envEx stEx Key.ret).1.historyLines.head? = some stEx.inputText ∧
        (eventFilterKey envEx stEx Key.ret).1.isOpen = false) ↔
      stEx.vars.status ≠ InputStatus.INVALID) ∧
    (stEx.vars.status = InputStatus.INVALID →
      (eventFilterKey envEx stEx Key.ret).1 = stEx ∧
        (eventFilterKey envEx stEx Key.ret).2 = false) :=
  c4_return_commits_iff envEx stEx (by decide)

/-! ### Claim C5 -/

theorem setTextAndSignal_fields (env : Env) (st : WState) (t : String) :
    (setTextAndSignal env st t).historyLines = st.historyLines ∧
    (setTextAndSignal env st t).historyIdx = st.historyIdx ∧
    (setTextAndSignal env st t).inputText = t := by
  unfold setTextAndSignal
  split
  · next heq => exact ⟨rfl, rfl, heq.symm⟩
  · exact ⟨rfl, rfl, rfl⟩

theorem histStep_upDown (env : Env) (st : WState) (k : Key)
    (hk : k = Key.up ∨ k = Key.down) (hhl : st.historyLines ≠ [])
    (hidx : st.historyIdx < st.historyLines.length) :
    (eventFilterKey env st k).1.historyLines = st.historyLines ∧
    (eventFilterKey env st k).1.historyIdx < st.historyLines.length ∧
    (eventFilterKey env st k).1.inputText =
      st.historyLines.getD (eventFilterKey env st k).1.historyIdx "" ∧
    (k = Key.up → (eventFilterKey env st k).1.historyIdx =
      min (st.historyLines.length - 1) (st.historyIdx + 1)) ∧
    (k = Key.down → (eventFilterKey env st k).1.historyIdx = st.historyIdx - 1) := by
  have hne : st.historyLines.isEmpty = false := by
    cases hl : st.historyLines
    · exact absurd hl hhl
    · rfl
  have hpos : 0 < st.historyLines.length := List.length_pos.mpr hhl
  rcases hk with hk | hk <;> subst hk
  · simp only [eventFilterKey, hne, Bool.false_eq_true, if_false]
    have hf := setTextAndSignal_fields env
      { st with historyIdx := min (st.historyLines.length - 1) (st.historyIdx + 1) }
      (st.historyLines.getD (min (st.historyLines.length - 1) (st.historyIdx + 1)) "")
    refine ⟨hf.1, ?_, ?_, fun _ => hf.2.1, fun hcon => absurd hcon (by decide)⟩
    · rw [hf.2.1]
      show min (st.historyLines.length - 1) (st.historyIdx + 1) < st.historyLines.length
      omega
    · rw [hf.2.2, hf.2.1]
  · simp only [eventFilterKey, hne, Bool.false_eq_true, if_false]
    have hf := setTextAndSignal_fields env
      { st with historyIdx := st.historyIdx - 1 }
      (st.historyLines.getD (st.historyIdx - 1) "")
    refine ⟨hf.1, ?_, ?_, fun hcon => absurd hcon (by decide), fun _ => hf.2.1⟩
    · rw [hf.2.1]
      show st.historyIdx - 1 < st.historyLines.length
      omega
    · rw [hf.2.2, hf.2.1]

theorem pressSeq_inv (env : Env) (L : List String) (hL : L ≠ []) :
    ∀ (ks : List Key) (st : WState), (∀ k ∈ ks, k = Key.up ∨ k = Key.down) →
      st.historyLines = L → st.historyIdx < L.length →
      (pressSeq env st ks).historyLines = L ∧
      (pressSeq env st ks).historyIdx < L.length ∧
      (ks ≠ [] → (pressSeq env st ks).inputText =
        L.getD (pressSeq env st ks).historyIdx "") := by
  intro ks
  induction ks with
  | nil =>
    intro st _ h1 h2
    exact ⟨h1, h2, by simp⟩
  | cons k ks ih =>
    intro st hks h1 h2
    have hstep := histStep_upDown env st k (hks k (by simp)) (h1 ▸ hL) (by rw [h1]; exact h2)
    have hlines : (eventFilterKey env st k).1.historyLines = L := by rw [hstep.1, h1]
    have hidx2 : (eventFilterKey env st k).1.historyIdx < L.length := by
      have := hstep.2.1
      rw [h1] at this
      exact this
    have hseq : pressSeq env st (k :: ks) = pressSeq env (eventFilterKey env st k).1 ks := rfl
    rw [hseq]
    have hrec := ih (eventFilterKey env st k).1 (fun j hj => hks j (by simp [hj])) hlines hidx2
    refine ⟨hrec.1, hrec.2.1, fun _ => ?_⟩
    by_cases hks0 : ks = []
    · subst hks0
      have htext := hstep.2.2.1
      rw [h1] at htext
      simpa [pressSeq] using htext
    · exact hrec.2.2 hks0

/-- C5: with a non-empty history, Up moves the history index up
saturating at `length - 1`, Down moves it down saturating at 0, after
any Up/Down sequence the index stays in `[0, length - 1]`, and after
each press the input field text is `historyLines[historyIdx]`. -/
theorem c5_history_navigation (env : Env) (st : WState)
    (hhl : st.historyLines ≠ []) (hidx : st.historyIdx < st.historyLines.length) :
    ((eventFilterKey env st Key.up).1.historyIdx =
        min (st.historyLines.length - 1) (st.historyIdx + 1)) ∧
    ((eventFilterKey env st Key.down).1.historyIdx = st.historyIdx - 1) ∧
    (∀ ks : List Key, (∀ k ∈ ks, k = Key.up ∨ k = Key.down) →
      (pressSeq env st ks).historyIdx < st.historyLines.length ∧
      (ks ≠ [] → (pressSeq env st ks).inputText =
        st.historyLines.getD (pressSeq env st ks).historyIdx "")) := by
  refine ⟨(histStep_upDown env st Key.up (Or.inl rfl) hhl hidx).2.2.2.1 rfl,
    (histStep_upDown env st Key.down (Or.inr rfl) hhl hidx).2.2.2.2 rfl,
    fun ks hks => ?_⟩
  have h := pressSeq_inv env st.historyLines hhl ks st hks rfl hidx
  exact ⟨h.2.1, h.2.2⟩

/-- Witness for C5 at the concrete state `stEx` and the press sequence
Up, Up, Down. -/
theorem c5_witness :
    ((eventFilterKey envEx stEx Key.up).1.historyIdx =
        min (stEx.historyLines.length - 1) (stEx.historyIdx + 1)) ∧
    (pressSeq envEx stEx [Key.up, Key.up, Key.down]).historyIdx < stEx.historyLines.length := by
  have h := c5_history_navigation envEx stEx (by decide) (by decide)
  exact ⟨h.1, (h.2.2 [Key.up, Key.up, Key.down] (by decide)).1⟩

end Structline

-- quick sanity checks of the Python-semantics helpers
example : Structline.tokenize "  a,b  10h  " = ["ab", "10h"] := by decide
example : Structline.parseOffset "10" = some 16 := by decide
example : Structline.parseOffset "10h" = some 16 := by decide
example : Structline.parseOffset "0x1FLL" = some 31 := by decide
example : Structline.parseOffset "0x1FLLu" = none := by decide
example : Structline.parseOffset "" = none := by decide
example : Structline.parseOffset "-a" = some (-10) := by decide
example : Structline.parseOffset "1_0" = some 16 := by decide
example : Structline.parseOffset "1__0" = none := by decide
example : Structline.parseOffset "0x_10" = some 16 := by decide
example : Structline.parseOffset "_1" = none := by decide
example : Structline.parseOffset "1_" = none := by decide
example : Structline.isValidMemberName "field_4" = true := by decide
example : Structline.isValidMemberName "4field" = false := by decide
example : Structline.isValidMemberName "" = false := by decide
example : Structline.isValidMemberName "a\n" = true := by decide
example : Structline.intHexUpper 255 = "FF" := by decide
example : Structline.intHexUpper 0 = "0" := by decide
example : Structline.intHexUpper (-10) = "-A" := by decide
